import Mathlib

/-!
# Verification of the debug-adapter core of `vscode-go`

This development embeds the two core components of the repository:

* `src/debugAdapter/mutex.ts` — the promise-chaining asynchronous `Mutex`
  (`lock` / `dispatch`), modelled as a small-step cooperative scheduler over
  the submission queue, with an explicit event trace;
* `GoDebugConfigurationProvider` — the debug-configuration resolver
  (`resolveDebugConfiguration` and
  `resolveDebugConfigurationWithSubstitutedVariables`), modelled as pure
  functions over an explicit record of the editor-host environment.

All definitions are executable; theorems are stated against them.
-/

set_option maxRecDepth 100000

namespace VscodeGo


/-! ## The asynchronous Mutex (`src/debugAdapter/mutex.ts`)

The TypeScript `Mutex` keeps a private promise `this.mutex` (initially
`Promise.resolve()`).  Each call to `lock()` captures the current tail,
replaces it with `this.mutex.then(() => new Promise(begin))`, and returns a
promise that fulfills with the `unlock` resolver of the fresh tail segment as
soon as the captured predecessor tail fulfills.  `dispatch(fn)` awaits
`lock()`, runs `fn`, and calls `unlock()` in a `finally` block, so the tail
segment is fulfilled on every exit path and the chain itself never rejects.

We model a fixed sequence of `N` submissions (each a `dispatch`, or
equivalently a manually scoped `lock` … `unlock`) issued in order.  Each
submission `k` is a task whose phase evolves as
`waiting → running d → running (d-1) → … → running 0 → done fails`:

* the `waiting → running` transition is the cooperative resumption of
  `await this.lock()` — by the chain structure it can fire only once the
  predecessor tail segment has been fulfilled, i.e. once task `k-1` has
  executed its `finally { unlock(); }` (and unconditionally for task 0,
  whose predecessor is the initial `Promise.resolve()`);
* `running n → running (n-1)` models an internal cooperative step of the
  body `fn` (an await point inside it);
* `running 0 → done fails` models the end of `await Promise.resolve(fn())`
  together with the `finally { unlock(); }`: the segment is fulfilled
  whether or not the body rejected, and the body's own outcome (`fails`)
  is what `dispatch` propagates to its caller.

A scheduler (an arbitrary list of task indices) drives the system; invalid
choices are no-ops, so every schedule — every cooperative interleaving — is
covered.  The trace records, in order, when each body begins (`start k`)
and when its critical section ends (`finish k`).
-/

/-- A submitted unit of work: how many internal cooperative steps its body
takes after it begins, and whether the body rejects (raises an error). -/
structure UnitOfWork where
  duration : Nat
  fails : Bool
deriving DecidableEq

/-- Phase of one submission: awaiting its turn, executing its body, or
completed (remembering whether its body rejected — the outcome `dispatch`
reports to that submission's caller). -/
inductive Phase where
  | waiting : Phase
  | running : Nat → Phase
  | done : Bool → Phase
deriving DecidableEq

/-- Observable events: submission `k`'s body begins / its critical section
ends (its `finally { unlock(); }` runs). -/
inductive Event where
  | start : Nat → Event
  | finish : Nat → Event
deriving DecidableEq

/-- Task `k`'s `await this.lock()` can resume: its predecessor tail segment
is fulfilled.  For `k = 0` the predecessor is the initial
`Promise.resolve()`; for `k = j+1` it is fulfilled exactly when task `j`
has run its `finally { unlock(); }`, regardless of task `j`'s outcome. -/
def enabled (σ : List Phase) (k : Nat) : Bool :=
  match k with
  | 0 => true
  | j + 1 =>
    match σ[j]? with
    | some (Phase.done _) => true
    | _ => false

/-- One cooperative step of task `k` (`none` when task `k` cannot move). -/
def step (ws : List UnitOfWork) (σ : List Phase) (k : Nat) :
    Option (List Phase × List Event) :=
  match σ[k]?, ws[k]? with
  | some Phase.waiting, some w =>
    if enabled σ k then some (σ.set k (Phase.running w.duration), [Event.start k])
    else none
  | some (Phase.running (n + 1)), some _ =>
    some (σ.set k (Phase.running n), [])
  | some (Phase.running 0), some w =>
    some (σ.set k (Phase.done w.fails), [Event.finish k])
  | _, _ => none

/-- Initially every submission is awaiting its turn. -/
def initTasks (ws : List UnitOfWork) : List Phase :=
  List.replicate ws.length Phase.waiting

/-- Run a schedule from a given state and accumulated trace; a schedule
entry naming a task that cannot move is skipped. -/
def runFrom (ws : List UnitOfWork) (a : List Phase × List Event)
    (sched : List Nat) : List Phase × List Event :=
  sched.foldl
    (fun a k =>
      match step ws a.1 k with
      | some (σ, evs) => (σ, a.2 ++ evs)
      | none => a)
    a

/-- Run a schedule from the initial state. -/
def run (ws : List UnitOfWork) (sched : List Nat) : List Phase × List Event :=
  runFrom ws (initTasks ws, []) sched

/-- The canonical serialized trace starting at submission index `i`:
`start i, finish i, start (i+1), finish (i+1), …`. -/
def canonicalFrom : Nat → Nat → List Event
  | _, 0 => []
  | i, n + 1 => Event.start i :: Event.finish i :: canonicalFrom (i + 1) n

/-- The canonical fully serialized trace of `N` submissions. -/
def canonical (ws : List UnitOfWork) : List Event :=
  canonicalFrom 0 ws.length

/-- The queue invariant: there is a frontier `f` such that every earlier
submission is done with its own body's outcome, every later submission is
still waiting, and the trace so far is the corresponding prefix of the
canonical serialized trace. -/
def Inv (ws : List UnitOfWork) (σ : List Phase) (tr : List Event) : Prop :=
  σ.length = ws.length ∧
  ∃ f, f ≤ ws.length ∧
    (∀ i, i < f → σ[i]? = (ws[i]?).map (fun w => Phase.done w.fails)) ∧
    (∀ i, f < i → i < ws.length → σ[i]? = some Phase.waiting) ∧
    ((σ[f]? = some Phase.waiting ∧ tr = (canonical ws).take (2 * f)) ∨
     (f = ws.length ∧ tr = (canonical ws).take (2 * f)) ∨
     (∃ n, σ[f]? = some (Phase.running n) ∧ tr = (canonical ws).take (2 * f + 1)))

/-- The outcome recorded for each completed submission. -/
def doneMap (ws : List UnitOfWork) : List Phase :=
  ws.map (fun w => Phase.done w.fails)

/-- A schedule that drives every submission to completion: for each
submission in order, its resumption step, its internal body steps, and its
release step.  It depends only on the durations, never on which bodies
fail. -/
def fullSchedFrom (i : Nat) : List UnitOfWork → List Nat
  | [] => []
  | w :: rest => List.replicate (w.duration + 2) i ++ fullSchedFrom (i + 1) rest

def fullSched (ws : List UnitOfWork) : List Nat := fullSchedFrom 0 ws

/-! ## The debug-configuration resolver (`GoDebugConfigurationProvider`)

`resolveDebugConfiguration` and
`resolveDebugConfigurationWithSubstitutedVariables` are embedded as pure
functions.  The editor host (active editor, `go.delveConfig` workspace
settings, the `dlv` binary lookup, the persisted warning-suppression flags,
`resolvePath`, the package-to-module map) is passed in as an explicit
record `Exts`; side effects (showing a warning, prompting to install a
missing tool) are returned as an explicit effect list.  JavaScript objects
holding environment variables are association lists whose lookup takes the
latest binding (`Object.assign` therefore appends), and JavaScript
truthiness of an optional string (`undefined` and `""` are falsy) is
`truthyStr`.  Paths follow node's posix semantics (`path.isAbsolute` tests
for a leading slash; `path.dirname` cuts at the last slash). -/

/-- The active text editor's document, as far as the resolver inspects it. -/
structure Editor where
  fileName : String
  languageId : String
deriving DecidableEq

/-- The `go.delveConfig` workspace setting block (`dlvConfig` in the code);
a `none` field models `!dlvConfig.hasOwnProperty(...)`. -/
structure DlvConfig where
  useApiV1 : Option Bool := none
  apiVersion : Option Nat := none
  dlvLoadConfig : Option String := none
  showGlobalVariables : Option Bool := none
deriving DecidableEq

/-- A JavaScript object of string-valued properties, as an association list;
lookup takes the latest binding, so an `Object.assign` source is appended. -/
abbrev Obj : Type := List (String × String)

/-- Property read on a JavaScript object: the latest binding wins. -/
def objGet (o : Obj) (k : String) : Option String :=
  List.foldl (fun acc kv => if kv.1 == k then some kv.2 else acc) none o

/-- The `envFile` attribute accepts a single path or a list of paths. -/
inductive EnvFileValue where
  | single : String → EnvFileValue
  | multiple : List String → EnvFileValue
deriving DecidableEq

/-- The debug configuration object, restricted to the properties the
resolver reads or writes (`type` is spelled `type'`, a Lean keyword).
A `none` field models an absent property. -/
structure DebugConfiguration where
  name : Option String := none
  type' : Option String := none
  request : Option String := none
  mode : Option String := none
  program : Option String := none
  cwd : Option String := none
  env : Option Obj := none
  envFile : Option EnvFileValue := none
  buildFlags : Option String := none
  apiVersion : Option Nat := none
  dlvLoadConfig : Option String := none
  showGlobalVariables : Option Bool := none
  dlvToolPath : Option String := none
  packagePathToGoModPathMap : Option Obj := none
  useApiV1 : Option Bool := none
deriving DecidableEq

/-- Side effects the resolver performs on the editor host. -/
inductive Effect where
  | warningShown : String → String → Effect
  | promptedForMissingTool : String → Effect
deriving DecidableEq

/-- The ambient editor-host capabilities the resolver consults. -/
structure Exts where
  activeEditor : Option Editor
  dlvConfig : DlvConfig
  packagePathToGoModPathMap : Obj
  dlvBinPath : String
  suppressed : String → Bool
  resolvePathFn : String → String
  defaultDebugAdapterType : String := "go"

/-- JavaScript truthiness of an optional string property: `undefined` and
the empty string are falsy. -/
def truthyStr : Option String → Bool
  | none => false
  | some s => !(s == "")

/-- Node's posix `path.isAbsolute`: the path starts with a slash. -/
def isAbsolute (p : String) : Bool :=
  match p.toList with
  | '/' :: _ => true
  | _ => false

/-- Whether a token starts with `--` (introduces a named long flag). -/
def isLongFlagTok (t : String) : Bool :=
  match t.toList with
  | '-' :: '-' :: _ => true
  | _ => false

/-- Whether `s` ends with `suffix` (JavaScript `String.prototype.endsWith`). -/
def strEndsWith (s suffix : String) : Bool :=
  decide (suffix.toList.reverse <+: s.toList.reverse)

/-- Split a flag string on spaces, dropping empty tokens. -/
def tokenize (s : String) : List String :=
  ((s.toList.foldr
      (fun c acc => if c == ' ' then ([] : List Char) :: acc else (c :: acc.headD []) :: acc.tail)
      ([[]] : List (List Char))).filter (fun t => !t.isEmpty)).map (fun t => String.mk t)

/-- Node's posix `path.dirname` (for paths without a trailing slash): the
part before the last slash; `"."` when there is no slash; `"/"` for a
file directly under the root. -/
def dirname (p : String) : String :=
  let cs := p.toList
  match (cs.reverse).findIdx? (fun c => c == '/') with
  | none => "."
  | some i =>
    let keep := cs.length - 1 - i
    if keep = 0 then "/" else String.mk (cs.take keep)

/-- `showWarning` (private method of `GoDebugConfigurationProvider`): a
no-op when the stable key was persisted as "don't show again"
(`getFromGlobalState`), otherwise the message is shown.  (The handling of
the user's "Don't Show Again" choice mutates state only after the resolver
returns and is not needed by any claim.) -/
def showWarning (suppressed : String → Bool) (key msg : String) : List Effect :=
  if suppressed key then [] else [Effect.warningShown key msg]

/-- Modelled from the spec: `removeFlag` delegates to the third-party
`yargs-parser` / `yargs-unparser` pair (dependencies that are not part of
this repository's sources).  Following the spec's description ("strip any
user-supplied compiler-flag that would conflict with the debugger's own
instrumentation flag from the `buildFlags` string") and its worked example
(`"--gcflags=all=-N -l --other=1"` resolves to `"--other=1"`), the string
is treated as space-separated tokens in which each token beginning with
`--` opens a named flag whose value extends over the following tokens up
to the next `--` token.  Tokens preceding the first `--` token form an
unnamed positional group that is never removed. -/
def groupTokens (ts : List String) : List (List String) :=
  let p := List.foldr
    (fun t (acc : List (List String) × List String) =>
      if isLongFlagTok t then ((t :: acc.2) :: acc.1, [])
      else (acc.1, t :: acc.2))
    ([], []) ts
  if p.2.isEmpty then p.1 else p.2 :: p.1

/-- The name of a `--name=value` or `--name` token. -/
def flagName (tok : String) : String :=
  String.mk ((tok.toList.drop 2).takeWhile (fun c => !(c == '=')))

/-- Whether a token group is the named flag `flag`. -/
def isFlagGroup (flag : String) (g : List String) : Bool :=
  match g with
  | t :: _ => isLongFlagTok t && (flagName t == flag)
  | [] => false

/-- The result record of `removeFlag`. -/
structure RemoveFlagResult where
  args : String
  removed : Bool
deriving DecidableEq

/-- Modelled from the spec: `removeFlag(args, flag)` parses `args`, and if
the named flag is present, deletes it and re-joins what remains (see
`groupTokens`); otherwise it returns `args` unchanged with
`removed: false`. -/
def removeFlag (args flag : String) : RemoveFlagResult :=
  let toks := tokenize args
  let groups := groupTokens toks
  if groups.any (isFlagGroup flag) then
    { args := String.intercalate " " (groups.filter (fun g => !(isFlagGroup flag g))).flatten,
      removed := true }
  else
    { args := args, removed := false }

/-- The first block of `resolveDebugConfiguration`: when the configuration
is absent or has no (truthy) `request`, a missing `launch.json` is assumed;
resolution fails unless the active editor holds a Go file, in which case a
skeleton is assigned onto the (possibly empty) configuration: name
`Launch`, the default adapter type, request `launch`, mode `auto`, and
`program` = the directory of the active file. -/
def skeletonStep (e : Exts) (dc0 : Option DebugConfiguration) :
    Option DebugConfiguration :=
  if !(match dc0 with | none => false | some c => truthyStr c.request) then
    match e.activeEditor with
    | none => none
    | some ed =>
      if ed.languageId == "go" then
        some { dc0.getD {} with
          name := some "Launch"
          type' := some e.defaultDebugAdapterType
          request := some "launch"
          mode := some "auto"
          program := some (dirname ed.fileName) }
      else none
  else dc0

/-- `if (!debugConfiguration.type) type = defaultDebugAdapterType`. -/
def setTypeDefault (e : Exts) (c : DebugConfiguration) : DebugConfiguration :=
  if truthyStr c.type' then c else { c with type' := some e.defaultDebugAdapterType }

/-- `debugConfiguration['packagePathToGoModPathMap'] = packagePathToGoModPathMap`. -/
def setGoModMap (e : Exts) (c : DebugConfiguration) : DebugConfiguration :=
  { c with packagePathToGoModPathMap := some e.packagePathToGoModPathMap }

/-- The `useApiV1` / `apiVersion` block: the configuration's own `useApiV1`
wins over the workspace `delveConfig` one; if the chosen value is `true`,
`apiVersion` is forced to 1; and an `apiVersion` absent from the
configuration is copied from the workspace `delveConfig` when present
there. -/
def apiV1Flag (e : Exts) (c : DebugConfiguration) : Bool :=
  match c.useApiV1 with
  | some b => b == true
  | none =>
    match e.dlvConfig.useApiV1 with
    | some b => b == true
    | none => false

/-- `if (useApiV1) apiVersion = 1`. -/
def applyApiV1 (e : Exts) (c : DebugConfiguration) : DebugConfiguration :=
  if apiV1Flag e c then { c with apiVersion := some 1 } else c

/-- Copy `apiVersion` from the workspace `delveConfig` when the
configuration has none. -/
def copyApiVersion (e : Exts) (c : DebugConfiguration) : DebugConfiguration :=
  if c.apiVersion.isNone then
    match e.dlvConfig.apiVersion with
    | some v => { c with apiVersion := some v }
    | none => c
  else c

def resolveApiVersion (e : Exts) (c : DebugConfiguration) : DebugConfiguration :=
  copyApiVersion e (applyApiV1 e c)

/-- Copy `dlvLoadConfig` from the workspace `delveConfig` when the
configuration does not set it. -/
def copyDlvLoadConfig (e : Exts) (c : DebugConfiguration) : DebugConfiguration :=
  if c.dlvLoadConfig.isNone then
    match e.dlvConfig.dlvLoadConfig with
    | some v => { c with dlvLoadConfig := some v }
    | none => c
  else c

/-- Copy `showGlobalVariables` from the workspace `delveConfig` when the
configuration does not set it. -/
def copyShowGlobalVariables (e : Exts) (c : DebugConfiguration) : DebugConfiguration :=
  if c.showGlobalVariables.isNone then
    match e.dlvConfig.showGlobalVariables with
    | some v => { c with showGlobalVariables := some v }
    | none => c
  else c

/-- For `attach` requests, default `cwd` to the workspace folder. -/
def defaultAttachCwd (c : DebugConfiguration) : DebugConfiguration :=
  if c.request == some "attach" && !(truthyStr c.cwd) then
    { c with cwd := some "$\x7bworkspaceFolder\x7d" }
  else c

/-- When `cwd` is set, expand home-directory shorthand (`resolvePath`,
imported from `./util` and abstracted here as `e.resolvePathFn`). -/
def expandCwd (e : Exts) (c : DebugConfiguration) : DebugConfiguration :=
  if truthyStr c.cwd then { c with cwd := c.cwd.map e.resolvePathFn } else c

/-- The field-resolution steps of `resolveDebugConfiguration` that precede
the `--gcflags` stripping, in source order. -/
def fieldPhase (e : Exts) (c : DebugConfiguration) : DebugConfiguration :=
  expandCwd e (defaultAttachCwd (copyShowGlobalVariables e (copyDlvLoadConfig e
    (resolveApiVersion e (setGoModMap e (setTypeDefault e c))))))

/-- The warning message for a `--gcflags` stripped from `buildFlags`. -/
def gcflagsBuildFlagsMsg : String :=
  "User specified build flag \x27--gcflags\x27 in \x27buildFlags\x27 is being ignored (see [debugging with build flags](https://github.com/golang/vscode-go/blob/master/docs/debugging.md#specifying-other-build-flags) documentation)"

/-- The warning message for a `--gcflags` stripped from `GOFLAGS`. -/
def gcflagsGoflagsMsg : String :=
  "User specified build flag \x27--gcflags\x27 in \x27GOFLAGS\x27 is being ignored (see [debugging with build flags](https://github.com/golang/vscode-go/blob/master/docs/debugging.md#specifying-other-build-flags) documentation)"

/-- The stable suppression key both `--gcflags` warnings use. -/
def gcflagsWarningKey : String := "ignoreDebugGCFlagsWarning"

/-- `// Remove any '--gcflags' entries and show a warning` — the
`buildFlags` branch. -/
def stripBuildFlagsGcflags (e : Exts) (c : DebugConfiguration) :
    DebugConfiguration × List Effect :=
  if truthyStr c.buildFlags then
    if (removeFlag (c.buildFlags.getD "") "gcflags").removed then
      ({ c with buildFlags := some (removeFlag (c.buildFlags.getD "") "gcflags").args },
       showWarning e.suppressed gcflagsWarningKey gcflagsBuildFlagsMsg)
    else (c, [])
  else (c, [])

/-- The `env['GOFLAGS']` branch of the `--gcflags` removal. -/
def stripGoflagsGcflags (e : Exts) (c : DebugConfiguration) :
    DebugConfiguration × List Effect :=
  match c.env with
  | none => (c, [])
  | some envObj =>
    if truthyStr (objGet envObj "GOFLAGS") then
      if (removeFlag ((objGet envObj "GOFLAGS").getD "") "gcflags").removed then
        ({ c with
            env := some (envObj ++
              [("GOFLAGS", (removeFlag ((objGet envObj "GOFLAGS").getD "") "gcflags").args)]) },
         showWarning e.suppressed gcflagsWarningKey gcflagsGoflagsMsg)
      else (c, [])
    else (c, [])

/-- Concretize `mode: "auto"`: `test` when the active editor's file name
ends in `_test.go`, else `debug` (also `debug` when there is no active
editor). -/
def concretizeMode (e : Exts) (c : DebugConfiguration) : DebugConfiguration :=
  if c.mode == some "auto" then
    let m :=
      match e.activeEditor with
      | some ed => if strEndsWith ed.fileName "_test.go" then "test" else "debug"
      | none => "debug"
    { c with mode := some m }
  else c

/-- Deprecation warning for `request: "launch"` with `mode: "remote"`. -/
def launchRemoteWarning (e : Exts) (c : DebugConfiguration) : List Effect :=
  if c.request == some "launch" && c.mode == some "remote" then
    showWarning e.suppressed "ignoreDebugLaunchRemoteWarning"
      "Request type of \x27launch\x27 with mode \x27remote\x27 is deprecated, please use request type \x27attach\x27 with mode \x27remote\x27 instead."
  else []

/-- Warning for `request: "attach"`, `mode: "remote"` with `program` set. -/
def attachRemoteProgramWarning (e : Exts) (c : DebugConfiguration) : List Effect :=
  if c.request == some "attach" && c.mode == some "remote" && truthyStr c.program then
    showWarning e.suppressed "ignoreUsingRemotePathAndProgramWarning"
      "Request type of \x27attach\x27 with mode \x27remote\x27 does not work with \x27program\x27 attribute, please use \x27cwd\x27 attribute instead."
  else []

/-- The configuration after field-level resolution, both `--gcflags`
strippings, and `debugConfiguration['dlvToolPath'] = getBinPath('dlv')`. -/
def afterStrips (e : Exts) (c1 : DebugConfiguration) : DebugConfiguration :=
  { (stripGoflagsGcflags e (stripBuildFlagsGcflags e (fieldPhase e c1)).1).1 with
    dlvToolPath := some e.dlvBinPath }

/-- The warnings emitted by the two `--gcflags` stripping sites, in order. -/
def stripWarnings (e : Exts) (c1 : DebugConfiguration) : List Effect :=
  (stripBuildFlagsGcflags e (fieldPhase e c1)).2 ++
    (stripGoflagsGcflags e (stripBuildFlagsGcflags e (fieldPhase e c1)).1).2

/-- Everything `resolveDebugConfiguration` does after the skeleton block:
field-level resolution, `--gcflags` stripping from `buildFlags` and then
from `env.GOFLAGS`, the `dlv` binary lookup (aborting — after prompting to
install the tool — when it is not an absolute path), mode concretization,
and the two mode/request warnings. -/
def resolveRest (e : Exts) (c1 : DebugConfiguration) :
    Option DebugConfiguration × List Effect :=
  if isAbsolute e.dlvBinPath then
    (some (concretizeMode e (afterStrips e c1)),
     stripWarnings e c1 ++ launchRemoteWarning e (concretizeMode e (afterStrips e c1)) ++
       attachRemoteProgramWarning e (concretizeMode e (afterStrips e c1)))
  else
    (none, stripWarnings e c1 ++ [Effect.promptedForMissingTool "dlv"])

/-- `GoDebugConfigurationProvider.resolveDebugConfiguration`.  The result
is the returned configuration (`none` models the bare `return;` paths) and
the list of effects performed.  The function is total: no input makes it
throw. -/
def resolveDebugConfiguration (e : Exts) (dc0 : Option DebugConfiguration) :
    Option DebugConfiguration × List Effect :=
  match skeletonStep e dc0 with
  | none => (none, [])
  | some c1 => resolveRest e c1

/-- Modelled from the spec: `parseEnvFiles` (imported from
`./utils/envUtils`, which is not among the repository sources) reads the
env file(s) named by the `envFile` attribute — a single path, a list of
paths, or unset — and combines their variable bindings, later files
overriding earlier ones.  The file system is abstracted as `fs`, mapping a
path to the bindings that file contains. -/
def parseEnvFiles (envFile : Option EnvFileValue) (fs : String → Obj) : Obj :=
  let paths :=
    match envFile with
    | none => []
    | some (EnvFileValue.single p) => [p]
    | some (EnvFileValue.multiple ps) => ps
  List.foldl (fun acc p => acc ++ fs p) ([] : Obj) paths

/-- `GoDebugConfigurationProvider.resolveDebugConfigurationWithSubstitutedVariables`:
`env` becomes `Object.assign(goToolsEnvVars, fileEnvs, env)` — the ambient
tool-execution environment, overridden by the env-file contents, overridden
by the configuration's inline `env` — and `envFile` is unset. -/
def resolveDebugConfigurationWithSubstitutedVariables
    (goToolsEnvVars : Obj) (fs : String → Obj) (dc : DebugConfiguration) :
    DebugConfiguration :=
  let fileEnvs := parseEnvFiles dc.envFile fs
  let env := dc.env.getD []
  { dc with
    env := some (goToolsEnvVars ++ fileEnvs ++ env)
    envFile := none }

/-- JavaScript `a || b` on optional lookups: the first operand wins when
present. -/
def optOr (a b : Option String) : Option String :=
  match a with
  | some v => some v
  | none => b

/-- Whether the configuration's `env.GOFLAGS` entry is a (truthy) string
containing a `gcflags` flag. -/
def goflagsHasGcflags (c : DebugConfiguration) : Bool :=
  match c.env with
  | none => false
  | some o =>
    truthyStr (objGet o "GOFLAGS") &&
      (removeFlag ((objGet o "GOFLAGS").getD "") "gcflags").removed

/-- How many occurrences of the gcflags warning (by suppression key) a
single `resolveDebugConfiguration` call would produce from the `GOFLAGS`
site. -/
def goflagsCount (e : Exts) (dc : DebugConfiguration) : Nat :=
  if e.suppressed gcflagsWarningKey then 0 else if goflagsHasGcflags dc then 1 else 0

/-- Number of warnings carrying a given suppression key in an effect list. -/
def warningKeyCount (evs : List Effect) (k : String) : Nat :=
  List.countP
    (fun ev =>
      match ev with
      | Effect.warningShown key _ => key == k
      | _ => false) evs

/-- Whether an effect is a warning carrying the shared gcflags key. -/
def isGcflagsKeyWarning (ev : Effect) : Bool :=
  match ev with
  | Effect.warningShown key _ => key == gcflagsWarningKey
  | _ => false

/-- Host fixture: no active editor, empty `delveConfig`, `dlv` found at an
absolute path, no warning suppressed. -/
def exE : Exts :=
  { activeEditor := none
    dlvConfig := {}
    packagePathToGoModPathMap := []
    dlvBinPath := "/usr/bin/dlv"
    suppressed := fun _ => false
    resolvePathFn := fun s => s }

/-- Host fixture: like `exE` but with an active Go editor on `/ws/main.go`. -/
def exEd : Exts :=
  { exE with activeEditor := some { fileName := "/ws/main.go", languageId := "go" } }

/-- Host fixture: like `exEd` but `getBinPath` returned the bare name
`dlv` (tool not found). -/
def exNoDlv : Exts := { exEd with dlvBinPath := "dlv" }

/-- Configuration fixture: launch with `mode: "auto"` and nothing else. -/
def dcAuto : DebugConfiguration := { request := some "launch", mode := some "auto" }

/-- What `resolveDebugConfiguration` produces from `dcAuto` when no active
editor decides otherwise: mode concretized to `debug`. -/
def cAutoResolved : DebugConfiguration :=
  { type' := some "go", request := some "launch", mode := some "debug",
    dlvToolPath := some "/usr/bin/dlv", packagePathToGoModPathMap := some [] }

/-- Configuration fixture: a `gcflags` flag in both `buildFlags` and the
`GOFLAGS` entry of `env`. -/
def dcBothGcflags : DebugConfiguration :=
  { request := some "launch", buildFlags := some "--gcflags=-N",
    env := some [("GOFLAGS", "--gcflags=-N")] }

/-- Configuration fixture: a `gcflags` flag in `buildFlags` only. -/
def dcBFonly : DebugConfiguration :=
  { request := some "launch", buildFlags := some "--gcflags=-N" }

/-- Configuration fixture: a `gcflags` flag in `env.GOFLAGS` only. -/
def dcGFonly : DebugConfiguration :=
  { request := some "launch", env := some [("GOFLAGS", "--gcflags=-N")] }

/-- Configuration fixture matching the spec's flag-stripping example. -/
def dcBF5 : DebugConfiguration :=
  { request := some "launch", buildFlags := some "--gcflags=all=-N -l --other=1" }

theorem canonicalFrom_length (n : Nat) : ∀ i, (canonicalFrom i n).length = 2 * n := by
  induction n with
  | zero => intro i; rfl
  | succ m ih =>
    intro i
    simp only [canonicalFrom, List.length_cons, ih (i + 1)]
    omega

theorem canonicalFrom_getElem? (n : Nat) : ∀ i j, j < n →
    (canonicalFrom i n)[2 * j]? = some (Event.start (i + j)) ∧
    (canonicalFrom i n)[2 * j + 1]? = some (Event.finish (i + j)) := by
  induction n with
  | zero => intro i j h; omega
  | succ m ih =>
    intro i j hj
    cases j with
    | zero => simp [canonicalFrom]
    | succ j' =>
      have h2 : 2 * (j' + 1) = 2 * j' + 1 + 1 := by omega
      have h3 : 2 * (j' + 1) + 1 = 2 * j' + 1 + 1 + 1 := by omega
      have h4 : i + 1 + j' = i + (j' + 1) := by omega
      have := ih (i + 1) j' (by omega)
      constructor
      · rw [h2, canonicalFrom, List.getElem?_cons_succ, List.getElem?_cons_succ]
        rw [h4] at this
        exact this.1
      · rw [h3, canonicalFrom, List.getElem?_cons_succ, List.getElem?_cons_succ]
        rw [h4] at this
        exact this.2

theorem canonical_getElem? (ws : List UnitOfWork) (j : Nat) (h : j < ws.length) :
    (canonical ws)[2 * j]? = some (Event.start j) ∧
    (canonical ws)[2 * j + 1]? = some (Event.finish j) := by
  have := canonicalFrom_getElem? ws.length 0 j h
  simpa [canonical] using this

theorem getElem?_some_lt {α : Type} {l : List α} {n : Nat} {a : α}
    (h : l[n]? = some a) : n < l.length := by
  by_contra hn
  rw [List.getElem?_eq_none (Nat.le_of_not_lt hn)] at h
  exact Option.noConfusion h

theorem enabled_succ {σ : List Phase} {j : Nat} (h : enabled σ (j + 1) = true) :
    ∃ b, σ[j]? = some (Phase.done b) := by
  rcases hj : σ[j]? with _ | p
  · simp only [enabled, hj] at h
    exact Bool.noConfusion h
  · cases p with
    | waiting =>
      simp only [enabled, hj] at h
      exact Bool.noConfusion h
    | running n =>
      simp only [enabled, hj] at h
      exact Bool.noConfusion h
    | done b => exact ⟨b, rfl⟩

theorem canonicalFrom_start_inv (n : Nat) : ∀ i m k,
    (canonicalFrom i n)[m]? = some (Event.start k) → m = 2 * (k - i) ∧ i ≤ k := by
  induction n with
  | zero => intro i m k h; simp [canonicalFrom] at h
  | succ p ih =>
    intro i m k h
    match m with
    | 0 =>
      simp [canonicalFrom] at h
      omega
    | 1 =>
      simp [canonicalFrom] at h
    | m' + 2 =>
      have h' : (canonicalFrom (i + 1) p)[m']? = some (Event.start k) := by
        simpa [canonicalFrom] using h
      have := ih (i + 1) m' k h'
      omega

theorem not_lt_frontier {ws : List UnitOfWork} {σ : List Phase} {f k : Nat}
    (hf : f ≤ ws.length)
    (hdone : ∀ i, i < f → σ[i]? = (ws[i]?).map (fun w => Phase.done w.fails))
    (hk : k < f) : ∃ b, σ[k]? = some (Phase.done b) := by
  have hkl : k < ws.length := lt_of_lt_of_le hk hf
  have h := hdone k hk
  rw [List.getElem?_eq_getElem hkl] at h
  exact ⟨(ws[k]).fails, by simpa using h⟩

theorem inv_step (ws : List UnitOfWork) (σ : List Phase) (tr : List Event) (k : Nat)
    (σ' : List Phase) (evs : List Event)
    (hinv : Inv ws σ tr) (hstep : step ws σ k = some (σ', evs)) :
    Inv ws σ' (tr ++ evs) := by
  obtain ⟨hlen, f, hf, hdone, hwait, hcur⟩ := hinv
  rcases h1 : σ[k]? with _ | ph
  · rcases h2 : ws[k]? with _ | w <;> simp only [step, h1, h2] at hstep <;>
      exact Option.noConfusion hstep
  · have hkσ : k < σ.length := getElem?_some_lt h1
    have hkw : k < ws.length := hlen ▸ hkσ
    have h2 : ws[k]? = some (ws[k]) := List.getElem?_eq_getElem hkw
    cases ph with
    | done b =>
      simp only [step, h1, h2] at hstep
      exact Option.noConfusion hstep
    | waiting =>
      simp only [step, h1, h2] at hstep
      by_cases he : enabled σ k = true
      · rw [if_pos he] at hstep
        simp only [Option.some.injEq, Prod.mk.injEq] at hstep
        obtain ⟨hσ', hevs⟩ := hstep
        subst hσ'; subst hevs
        have hkf : k = f := by
          rcases Nat.lt_trichotomy k f with hlt | heq | hgt
          · obtain ⟨b, hb⟩ := not_lt_frontier hf hdone hlt
            rw [h1] at hb; exact absurd hb (by simp)
          · exact heq
          · exfalso
            match k, hgt with
            | j + 1, hgt =>
              obtain ⟨b, hb⟩ := enabled_succ he
              have hjσ : j < ws.length := by omega
              rcases Nat.lt_or_ge f j with hj | hj
              · rw [hwait j hj hjσ] at hb; exact absurd hb (by simp)
              · have hjf : j = f := by omega
                subst hjf
                rcases hcur with ⟨hfw, -⟩ | ⟨hfl, -⟩ | ⟨n, hfr, -⟩
                · rw [hfw] at hb; exact absurd hb (by simp)
                · omega
                · rw [hfr] at hb; exact absurd hb (by simp)
        subst hkf
        have htr : tr = (canonical ws).take (2 * k) := by
          rcases hcur with ⟨-, htr⟩ | ⟨hfl, -⟩ | ⟨n, hfr, -⟩
          · exact htr
          · omega
          · rw [hfr] at h1; exact absurd h1 (by simp)
        refine ⟨by simpa using hlen, k, hf, ?_, ?_, Or.inr (Or.inr ⟨(ws[k]).duration, ?_, ?_⟩)⟩
        · intro i hi
          rw [List.getElem?_set_ne (by omega)]
          exact hdone i hi
        · intro i hfi hil
          rw [List.getElem?_set_ne (by omega)]
          exact hwait i hfi hil
        · exact List.getElem?_set_self hkσ
        · rw [htr, List.take_succ, (canonical_getElem? ws k hkw).1]
          rfl
      · rw [if_neg he] at hstep
        exact Option.noConfusion hstep
    | running n =>
      cases n with
      | succ m =>
        simp only [step, h1, h2, Option.some.injEq, Prod.mk.injEq] at hstep
        obtain ⟨hσ', hevs⟩ := hstep
        subst hσ'; subst hevs
        have hkf : k = f := by
          rcases Nat.lt_trichotomy k f with hlt | heq | hgt
          · obtain ⟨b, hb⟩ := not_lt_frontier hf hdone hlt
            rw [h1] at hb; exact absurd hb (by simp)
          · exact heq
          · rw [hwait k hgt hkw] at h1; exact absurd h1 (by simp)
        subst hkf
        obtain ⟨n₀, hfr, htr⟩ : ∃ n₀, σ[k]? = some (Phase.running n₀) ∧
            tr = (canonical ws).take (2 * k + 1) := by
          rcases hcur with ⟨hfw, -⟩ | ⟨hfl, -⟩ | ⟨n₀, hfr, htr⟩
          · rw [hfw] at h1; exact absurd h1 (by simp)
          · omega
          · exact ⟨n₀, hfr, htr⟩
        refine ⟨by simpa using hlen, k, hf, ?_, ?_, Or.inr (Or.inr ⟨m, ?_, ?_⟩)⟩
        · intro i hi
          rw [List.getElem?_set_ne (by omega)]
          exact hdone i hi
        · intro i hfi hil
          rw [List.getElem?_set_ne (by omega)]
          exact hwait i hfi hil
        · exact List.getElem?_set_self hkσ
        · simpa using htr
      | zero =>
        simp only [step, h1, h2, Option.some.injEq, Prod.mk.injEq] at hstep
        obtain ⟨hσ', hevs⟩ := hstep
        subst hσ'; subst hevs
        have hkf : k = f := by
          rcases Nat.lt_trichotomy k f with hlt | heq | hgt
          · obtain ⟨b, hb⟩ := not_lt_frontier hf hdone hlt
            rw [h1] at hb; exact absurd hb (by simp)
          · exact heq
          · rw [hwait k hgt hkw] at h1; exact absurd h1 (by simp)
        subst hkf
        have htr : tr = (canonical ws).take (2 * k + 1) := by
          rcases hcur with ⟨hfw, -⟩ | ⟨hfl, -⟩ | ⟨n₀, hfr, htr⟩
          · rw [hfw] at h1; exact absurd h1 (by simp)
          · omega
          · exact htr
        have htr' : tr ++ [Event.finish k] = (canonical ws).take (2 * (k + 1)) := by
          have h21 : 2 * (k + 1) = 2 * k + 1 + 1 := by omega
          have hrhs : (canonical ws).take (2 * (k + 1)) =
              (canonical ws).take (2 * k + 1) ++ [Event.finish k] := by
            rw [h21, List.take_succ, (canonical_getElem? ws k hkw).2]
            rfl
          rw [htr, hrhs]
        refine ⟨by simpa using hlen, k + 1, by omega, ?_, ?_, ?_⟩
        · intro i hi
          rcases Nat.lt_or_ge i k with hik | hik
          · rw [List.getElem?_set_ne (by omega)]
            exact hdone i hik
          · have hik' : i = k := by omega
            subst hik'
            rw [List.getElem?_set_self hkσ, h2]
            rfl
        · intro i hfi hil
          rw [List.getElem?_set_ne (by omega)]
          exact hwait i (by omega) hil
        · by_cases hfl : k + 1 = ws.length
          · exact Or.inr (Or.inl ⟨hfl, htr'⟩)
          · refine Or.inl ⟨?_, htr'⟩
            rw [List.getElem?_set_ne (by omega)]
            exact hwait (k + 1) (by omega) (by omega)

theorem inv_runFrom (ws : List UnitOfWork) (sched : List Nat) :
    ∀ a : List Phase × List Event, Inv ws a.1 a.2 →
      Inv ws (runFrom ws a sched).1 (runFrom ws a sched).2 := by
  induction sched with
  | nil => intro a h; exact h
  | cons k s ih =>
    intro a h
    have hcons : runFrom ws a (k :: s) =
        runFrom ws
          (match step ws a.1 k with
           | some (σ, evs) => (σ, a.2 ++ evs)
           | none => a) s := rfl
    rw [hcons]
    apply ih
    rcases hs : step ws a.1 k with _ | ⟨σ, evs⟩
    · simpa [hs] using h
    · simp only [hs]
      exact inv_step ws a.1 a.2 k σ evs h hs

theorem inv_init (ws : List UnitOfWork) : Inv ws (initTasks ws) [] := by
  refine ⟨by simp [initTasks], 0, Nat.zero_le _, fun i hi => absurd hi (by omega), ?_, ?_⟩
  · intro i _ hi
    simp [initTasks, List.getElem?_replicate, hi]
  · rcases Nat.eq_zero_or_pos ws.length with h | h
    · exact Or.inr (Or.inl ⟨h.symm, by simp⟩)
    · exact Or.inl ⟨by simp [initTasks, List.getElem?_replicate, h], by simp⟩

theorem inv_run (ws : List UnitOfWork) (sched : List Nat) :
    Inv ws (run ws sched).1 (run ws sched).2 :=
  inv_runFrom ws sched _ (inv_init ws)

theorem runFrom_cons (ws : List UnitOfWork) (a : List Phase × List Event) (k : Nat)
    (s : List Nat) :
    runFrom ws a (k :: s) =
      runFrom ws
        (match step ws a.1 k with
         | some (σ, evs) => (σ, a.2 ++ evs)
         | none => a) s := rfl

theorem runFrom_cons_some (ws : List UnitOfWork) (a : List Phase × List Event) (k : Nat)
    (s : List Nat) (σ : List Phase) (evs : List Event)
    (h : step ws a.1 k = some (σ, evs)) :
    runFrom ws a (k :: s) = runFrom ws (σ, a.2 ++ evs) s := by
  rw [runFrom_cons, h]

theorem runFrom_append (ws : List UnitOfWork) (a : List Phase × List Event)
    (s₁ s₂ : List Nat) :
    runFrom ws a (s₁ ++ s₂) = runFrom ws (runFrom ws a s₁) s₂ := by
  simp [runFrom, List.foldl_append]

theorem runFrom_replicate_running (ws : List UnitOfWork) (k : Nat) (w : UnitOfWork)
    (hw : ws[k]? = some w) :
    ∀ (n : Nat) (σ : List Phase) (tr : List Event), σ[k]? = some (Phase.running n) →
      runFrom ws (σ, tr) (List.replicate (n + 1) k) =
        (σ.set k (Phase.done w.fails), tr ++ [Event.finish k]) := by
  intro n
  induction n with
  | zero =>
    intro σ tr hσ
    have hstep : step ws σ k = some (σ.set k (Phase.done w.fails), [Event.finish k]) := by
      simp [step, hσ, hw]
    have : List.replicate (0 + 1) k = [k] := rfl
    rw [this, runFrom_cons_some ws (σ, tr) k [] _ _ hstep]
    rfl
  | succ m ih =>
    intro σ tr hσ
    have hstep : step ws σ k = some (σ.set k (Phase.running m), []) := by
      simp [step, hσ, hw]
    have hrep : List.replicate (m + 1 + 1) k = k :: List.replicate (m + 1) k := rfl
    rw [hrep, runFrom_cons_some ws (σ, tr) k _ _ _ hstep]
    have hσ' : (σ.set k (Phase.running m))[k]? = some (Phase.running m) :=
      List.getElem?_set_self (getElem?_some_lt hσ)
    rw [ih _ _ hσ', List.set_set]
    simp

theorem runFrom_whole_task (ws : List UnitOfWork) (k : Nat) (w : UnitOfWork)
    (hw : ws[k]? = some w) (σ : List Phase) (tr : List Event)
    (hσ : σ[k]? = some Phase.waiting) (he : enabled σ k = true) :
    runFrom ws (σ, tr) (List.replicate (w.duration + 2) k) =
      (σ.set k (Phase.done w.fails), tr ++ [Event.start k, Event.finish k]) := by
  have hstep : step ws σ k =
      some (σ.set k (Phase.running w.duration), [Event.start k]) := by
    simp [step, hσ, hw, he]
  have hrep : List.replicate (w.duration + 2) k = k :: List.replicate (w.duration + 1) k := rfl
  rw [hrep, runFrom_cons_some ws (σ, tr) k _ _ _ hstep]
  have hσ' : (σ.set k (Phase.running w.duration))[k]? = some (Phase.running w.duration) :=
    List.getElem?_set_self (getElem?_some_lt hσ)
  rw [runFrom_replicate_running ws k w hw w.duration _ _ hσ', List.set_set]
  simp

theorem set_at_append_length {α : Type} (l₁ : List α) (a b : α) (l₂ : List α) :
    (l₁ ++ a :: l₂).set l₁.length b = l₁ ++ b :: l₂ := by
  induction l₁ with
  | nil => rfl
  | cons x xs ih => simp [ih]

theorem runFrom_fullSchedFrom (suf : List UnitOfWork) :
    ∀ (pre : List UnitOfWork) (tr : List Event),
      runFrom (pre ++ suf)
          (doneMap pre ++ List.replicate suf.length Phase.waiting, tr)
          (fullSchedFrom pre.length suf) =
        (doneMap (pre ++ suf), tr ++ canonicalFrom pre.length suf.length) := by
  induction suf with
  | nil =>
    intro pre tr
    simp [fullSchedFrom, runFrom, doneMap, canonicalFrom]
  | cons w rest ih =>
    intro pre tr
    have hplen : (doneMap pre).length = pre.length := by simp [doneMap]
    have hσw : (doneMap pre ++ List.replicate (w :: rest).length Phase.waiting)[pre.length]? =
        some Phase.waiting := by
      rw [List.getElem?_append_right (by omega)]
      simp [hplen, List.getElem?_replicate]
    have hwk : (pre ++ w :: rest)[pre.length]? = some w := by
      rw [List.getElem?_append_right (le_refl _)]
      simp
    have he : enabled (doneMap pre ++ List.replicate (w :: rest).length Phase.waiting)
        pre.length = true := by
      cases hp : pre.length with
      | zero => rfl
      | succ j =>
        have hj : j < pre.length := by omega
        have hjlt : j < (doneMap pre).length := by omega
        obtain ⟨wj, hwj⟩ : ∃ wj, pre[j]? = some wj := ⟨_, List.getElem?_eq_getElem hj⟩
        have hjd : (doneMap pre ++ List.replicate (w :: rest).length Phase.waiting)[j]? =
            some (Phase.done wj.fails) := by
          simp [List.getElem?_append, hjlt, doneMap, hwj]
          exact fun hle => absurd hle (by omega)
        simp only [enabled, hjd]
    have hsched : fullSchedFrom pre.length (w :: rest) =
        List.replicate (w.duration + 2) pre.length ++ fullSchedFrom (pre.length + 1) rest := rfl
    rw [hsched, runFrom_append,
      runFrom_whole_task (pre ++ w :: rest) pre.length w hwk _ _ hσw he]
    have hrepl : List.replicate (w :: rest).length Phase.waiting =
        Phase.waiting :: List.replicate rest.length Phase.waiting := rfl
    have hset : (doneMap pre ++ List.replicate (w :: rest).length Phase.waiting).set
          pre.length (Phase.done w.fails) =
        doneMap (pre ++ [w]) ++ List.replicate rest.length Phase.waiting := by
      rw [hrepl, ← hplen, set_at_append_length]
      simp [doneMap]
    rw [hset]
    have hlen1 : (pre ++ [w]).length = pre.length + 1 := by simp
    have happ : (pre ++ [w]) ++ rest = pre ++ w :: rest := by simp
    have := ih (pre ++ [w]) (tr ++ [Event.start pre.length, Event.finish pre.length])
    rw [hlen1, happ] at this
    rw [this]
    have hcan : canonicalFrom pre.length (w :: rest).length =
        Event.start pre.length :: Event.finish pre.length ::
          canonicalFrom (pre.length + 1) rest.length := rfl
    rw [hcan]
    simp

/-- Running the full schedule completes every submission — each with its own
body's outcome — and produces exactly the canonical serialized trace. -/
theorem run_fullSched (ws : List UnitOfWork) :
    run ws (fullSched ws) = (doneMap ws, canonical ws) := by
  have h := runFrom_fullSchedFrom ws [] []
  simpa [run, fullSched, initTasks, doneMap, canonical] using h

/-- C1: for every sequence of units of work submitted to the `Mutex` (via
`dispatch` or `lock`) in a given order and every cooperative interleaving,
the observed trace is a prefix of the canonical serialized trace
`start 0, finish 0, start 1, finish 1, …`; in particular bodies begin
executing in exactly the submission (FIFO) order, and at any reachable
instant at most one submitted unit of work is executing its body. -/
theorem mutex_fifo_and_mutual_exclusion (ws : List UnitOfWork) (sched : List Nat) :
    ((run ws sched).2 <+: canonical ws) ∧
    (∀ i j ki kj : Nat, i < j →
      ((run ws sched).2)[i]? = some (Event.start ki) →
      ((run ws sched).2)[j]? = some (Event.start kj) → ki < kj) ∧
    (∀ (i j a : Nat) (b : Nat),
      ((run ws sched).1)[i]? = some (Phase.running a) →
      ((run ws sched).1)[j]? = some (Phase.running b) → i = j) := by
  obtain ⟨hlen, f, hf, hdone, hwait, hcur⟩ := inv_run ws sched
  obtain ⟨m, htr⟩ : ∃ m, (run ws sched).2 = (canonical ws).take m := by
    rcases hcur with ⟨-, h⟩ | ⟨-, h⟩ | ⟨n, -, h⟩
    · exact ⟨2 * f, h⟩
    · exact ⟨2 * f, h⟩
    · exact ⟨2 * f + 1, h⟩
  refine ⟨?_, ?_, ?_⟩
  · rw [htr]
    exact ⟨(canonical ws).drop m, List.take_append_drop m (canonical ws)⟩
  · intro i j ki kj hij hi hj
    rw [htr, List.getElem?_take] at hi hj
    by_cases him : i < m
    · rw [if_pos him] at hi
      by_cases hjm : j < m
      · rw [if_pos hjm] at hj
        have h1 := canonicalFrom_start_inv ws.length 0 i ki (by simpa [canonical] using hi)
        have h2 := canonicalFrom_start_inv ws.length 0 j kj (by simpa [canonical] using hj)
        omega
      · rw [if_neg hjm] at hj
        exact Option.noConfusion hj
    · rw [if_neg him] at hi
      exact Option.noConfusion hi
  · intro i j a b hi hj
    have key : ∀ t c, ((run ws sched).1)[t]? = some (Phase.running c) → t = f := by
      intro t c ht
      rcases Nat.lt_trichotomy t f with h | h | h
      · obtain ⟨d, hd⟩ := not_lt_frontier hf hdone h
        rw [ht] at hd
        exact absurd hd (by simp)
      · exact h
      · have htl : t < ws.length := hlen ▸ getElem?_some_lt ht
        rw [hwait t h htl] at ht
        exact absurd ht (by simp)
    rw [key i a hi, key j b hj]

theorem mutex_fifo_and_mutual_exclusion_witness :
    ((run [⟨1, false⟩, ⟨0, true⟩] [0, 0, 0, 1, 1]).2)[0]? = some (Event.start 0) ∧
    ((run [⟨1, false⟩, ⟨0, true⟩] [0, 0, 0, 1, 1]).2)[2]? = some (Event.start 1) ∧
    (0 : Nat) < 1 :=
  ⟨by decide, by decide,
    (mutex_fifo_and_mutual_exclusion [⟨1, false⟩, ⟨0, true⟩] [0, 0, 0, 1, 1]).2.1
      0 2 0 1 (by decide) (by decide) (by decide)⟩

/-- C2: a completed submission's recorded outcome is exactly its own body's
outcome (a failure is observed only by the caller that submitted that unit,
and every other caller's `dispatch` result is unaffected); the full schedule
— which depends only on durations, never on which bodies fail — completes
every submission and produces the whole canonical trace, so a failing body
does not block or poison the queue; and in that trace submission `k+1`
begins right after submission `k` completes. -/
theorem mutex_fault_isolation (ws : List UnitOfWork) (sched : List Nat) :
    (∀ (j : Nat) (b : Bool), ((run ws sched).1)[j]? = some (Phase.done b) →
      (ws[j]?).map UnitOfWork.fails = some b) ∧
    run ws (fullSched ws) = (doneMap ws, canonical ws) ∧
    (∀ k : Nat, k + 1 < ws.length →
      (canonical ws)[2 * k + 1]? = some (Event.finish k) ∧
      (canonical ws)[2 * (k + 1)]? = some (Event.start (k + 1))) := by
  refine ⟨?_, run_fullSched ws, ?_⟩
  · intro j b hj
    obtain ⟨hlen, f, hf, hdone, hwait, hcur⟩ := inv_run ws sched
    have hjl : j < ws.length := hlen ▸ getElem?_some_lt hj
    rcases Nat.lt_trichotomy j f with h | h | h
    · have hd := hdone j h
      obtain ⟨wj, hwj⟩ : ∃ wj, ws[j]? = some wj := ⟨_, List.getElem?_eq_getElem hjl⟩
      rw [hj, hwj] at hd
      simp only [Option.map_some', Option.some.injEq, Phase.done.injEq] at hd
      rw [hwj]
      simp only [Option.map_some', Option.some.injEq]
      exact hd.symm
    · subst h
      rcases hcur with ⟨hfw, -⟩ | ⟨hfl, -⟩ | ⟨n, hfr, -⟩
      · rw [hfw] at hj; exact absurd hj (by simp)
      · omega
      · rw [hfr] at hj; exact absurd hj (by simp)
    · rw [hwait j h hjl] at hj; exact absurd hj (by simp)
  · intro k hk
    exact ⟨(canonical_getElem? ws k (by omega)).2, (canonical_getElem? ws (k + 1) hk).1⟩

theorem mutex_fault_isolation_witness :
    ((run [⟨0, true⟩, ⟨0, false⟩] [0, 0, 1, 1]).1)[0]? = some (Phase.done true) ∧
    (([⟨0, true⟩, ⟨0, false⟩] : List UnitOfWork)[0]?).map UnitOfWork.fails = some true ∧
    (canonical [⟨0, true⟩, ⟨0, false⟩])[1]? = some (Event.finish 0) :=
  ⟨by decide,
    (mutex_fault_isolation [⟨0, true⟩, ⟨0, false⟩] [0, 0, 1, 1]).1 0 true (by decide),
    ((mutex_fault_isolation [⟨0, true⟩, ⟨0, false⟩] [0, 0, 1, 1]).2.2 0 (by decide)).1⟩

theorem objGet_foldl_acc (k : String) :
    ∀ (o : Obj) (acc : Option String),
      List.foldl (fun acc kv => if kv.1 == k then some kv.2 else acc) acc o =
        optOr (objGet o k) acc := by
  intro o
  induction o with
  | nil => intro acc; rfl
  | cons kv o' ih =>
    intro acc
    show List.foldl _ (if kv.1 == k then some kv.2 else acc) o' = _
    rw [ih]
    have hr : objGet (kv :: o') k =
        optOr (objGet o' k) (if kv.1 == k then some kv.2 else none) := by
      show List.foldl _ (if kv.1 == k then some kv.2 else none) o' = _
      rw [ih]
    rw [hr]
    cases hkv : (kv.1 == k) <;> cases hko : objGet o' k <;> simp [optOr, hkv, hko]

theorem objGet_append (a b : Obj) (k : String) :
    objGet (a ++ b) k = optOr (objGet b k) (objGet a k) := by
  show List.foldl _ none (a ++ b) = _
  rw [List.foldl_append]
  exact objGet_foldl_acc k b (objGet a k)

theorem skeletonStep_truthy (e : Exts) (dc : DebugConfiguration)
    (hreq : truthyStr dc.request = true) :
    skeletonStep e (some dc) = some dc := by
  simp [skeletonStep, hreq]

theorem resolve_of_skeleton_some (e : Exts) (dc0 : Option DebugConfiguration)
    (c1 : DebugConfiguration) (h : skeletonStep e dc0 = some c1) :
    resolveDebugConfiguration e dc0 = resolveRest e c1 := by
  unfold resolveDebugConfiguration
  rw [h]

theorem setTypeDefault_keeps (e : Exts) (c : DebugConfiguration) :
    (setTypeDefault e c).mode = c.mode ∧ (setTypeDefault e c).buildFlags = c.buildFlags ∧
    (setTypeDefault e c).env = c.env := by
  unfold setTypeDefault
  split <;> exact ⟨rfl, rfl, rfl⟩

theorem setGoModMap_keeps (e : Exts) (c : DebugConfiguration) :
    (setGoModMap e c).mode = c.mode ∧ (setGoModMap e c).buildFlags = c.buildFlags ∧
    (setGoModMap e c).env = c.env :=
  ⟨rfl, rfl, rfl⟩

theorem applyApiV1_keeps (e : Exts) (c : DebugConfiguration) :
    (applyApiV1 e c).mode = c.mode ∧ (applyApiV1 e c).buildFlags = c.buildFlags ∧
    (applyApiV1 e c).env = c.env := by
  unfold applyApiV1
  split <;> exact ⟨rfl, rfl, rfl⟩

theorem copyApiVersion_keeps (e : Exts) (c : DebugConfiguration) :
    (copyApiVersion e c).mode = c.mode ∧ (copyApiVersion e c).buildFlags = c.buildFlags ∧
    (copyApiVersion e c).env = c.env := by
  unfold copyApiVersion
  repeat' split
  all_goals exact ⟨rfl, rfl, rfl⟩

theorem resolveApiVersion_keeps (e : Exts) (c : DebugConfiguration) :
    (resolveApiVersion e c).mode = c.mode ∧
    (resolveApiVersion e c).buildFlags = c.buildFlags ∧
    (resolveApiVersion e c).env = c.env := by
  unfold resolveApiVersion
  obtain ⟨a1, a2, a3⟩ := applyApiV1_keeps e c
  obtain ⟨b1, b2, b3⟩ := copyApiVersion_keeps e (applyApiV1 e c)
  exact ⟨b1.trans a1, b2.trans a2, b3.trans a3⟩

theorem copyDlvLoadConfig_keeps (e : Exts) (c : DebugConfiguration) :
    (copyDlvLoadConfig e c).mode = c.mode ∧
    (copyDlvLoadConfig e c).buildFlags = c.buildFlags ∧
    (copyDlvLoadConfig e c).env = c.env := by
  unfold copyDlvLoadConfig
  repeat' split
  all_goals exact ⟨rfl, rfl, rfl⟩

theorem copyShowGlobalVariables_keeps (e : Exts) (c : DebugConfiguration) :
    (copyShowGlobalVariables e c).mode = c.mode ∧
    (copyShowGlobalVariables e c).buildFlags = c.buildFlags ∧
    (copyShowGlobalVariables e c).env = c.env := by
  unfold copyShowGlobalVariables
  repeat' split
  all_goals exact ⟨rfl, rfl, rfl⟩

theorem defaultAttachCwd_keeps (c : DebugConfiguration) :
    (defaultAttachCwd c).mode = c.mode ∧ (defaultAttachCwd c).buildFlags = c.buildFlags ∧
    (defaultAttachCwd c).env = c.env := by
  unfold defaultAttachCwd
  split <;> exact ⟨rfl, rfl, rfl⟩

theorem expandCwd_keeps (e : Exts) (c : DebugConfiguration) :
    (expandCwd e c).mode = c.mode ∧ (expandCwd e c).buildFlags = c.buildFlags ∧
    (expandCwd e c).env = c.env := by
  unfold expandCwd
  split <;> exact ⟨rfl, rfl, rfl⟩

theorem fieldPhase_keeps (e : Exts) (c : DebugConfiguration) :
    (fieldPhase e c).mode = c.mode ∧ (fieldPhase e c).buildFlags = c.buildFlags ∧
    (fieldPhase e c).env = c.env := by
  unfold fieldPhase
  obtain ⟨a1, a2, a3⟩ := setTypeDefault_keeps e c
  obtain ⟨b1, b2, b3⟩ := setGoModMap_keeps e (setTypeDefault e c)
  obtain ⟨d1, d2, d3⟩ := resolveApiVersion_keeps e (setGoModMap e (setTypeDefault e c))
  obtain ⟨f1, f2, f3⟩ :=
    copyDlvLoadConfig_keeps e (resolveApiVersion e (setGoModMap e (setTypeDefault e c)))
  obtain ⟨g1, g2, g3⟩ := copyShowGlobalVariables_keeps e
    (copyDlvLoadConfig e (resolveApiVersion e (setGoModMap e (setTypeDefault e c))))
  obtain ⟨h1, h2, h3⟩ := defaultAttachCwd_keeps (copyShowGlobalVariables e
    (copyDlvLoadConfig e (resolveApiVersion e (setGoModMap e (setTypeDefault e c)))))
  obtain ⟨i1, i2, i3⟩ := expandCwd_keeps e (defaultAttachCwd (copyShowGlobalVariables e
    (copyDlvLoadConfig e (resolveApiVersion e (setGoModMap e (setTypeDefault e c))))))
  exact ⟨i1.trans (h1.trans (g1.trans (f1.trans (d1.trans (b1.trans a1))))),
    i2.trans (h2.trans (g2.trans (f2.trans (d2.trans (b2.trans a2))))),
    i3.trans (h3.trans (g3.trans (f3.trans (d3.trans (b3.trans a3)))))⟩

theorem stripBuildFlagsGcflags_keeps (e : Exts) (c : DebugConfiguration) :
    (stripBuildFlagsGcflags e c).1.mode = c.mode ∧
    (stripBuildFlagsGcflags e c).1.env = c.env := by
  unfold stripBuildFlagsGcflags
  repeat' split
  all_goals exact ⟨rfl, rfl⟩

theorem stripGoflagsGcflags_keeps (e : Exts) (c : DebugConfiguration) :
    (stripGoflagsGcflags e c).1.mode = c.mode ∧
    (stripGoflagsGcflags e c).1.buildFlags = c.buildFlags := by
  unfold stripGoflagsGcflags
  repeat' split
  all_goals exact ⟨rfl, rfl⟩

theorem concretizeMode_keeps (e : Exts) (c : DebugConfiguration) :
    (concretizeMode e c).buildFlags = c.buildFlags := by
  unfold concretizeMode
  split <;> rfl

theorem stripBF_some (e : Exts) (c : DebugConfiguration) (bf : String)
    (hbf : c.buildFlags = some bf) (hne : (bf == "") = false) :
    stripBuildFlagsGcflags e c =
      if (removeFlag bf "gcflags").removed then
        ({ c with buildFlags := some (removeFlag bf "gcflags").args },
         showWarning e.suppressed gcflagsWarningKey gcflagsBuildFlagsMsg)
      else (c, []) := by
  unfold stripBuildFlagsGcflags
  rw [hbf]
  simp [truthyStr, hne]

theorem goflagsHasGcflags_env_congr {c c' : DebugConfiguration} (h : c.env = c'.env) :
    goflagsHasGcflags c = goflagsHasGcflags c' := by
  unfold goflagsHasGcflags
  rw [h]

theorem warningKeyCount_append (a b : List Effect) (k : String) :
    warningKeyCount (a ++ b) k = warningKeyCount a k + warningKeyCount b k :=
  List.countP_append _ _ _

theorem warningKeyCount_show_self (s : String → Bool) (msg : String) :
    warningKeyCount (showWarning s gcflagsWarningKey msg) gcflagsWarningKey =
      if s gcflagsWarningKey then 0 else 1 := by
  unfold showWarning
  split <;> simp [warningKeyCount]

theorem stripGF_count (e : Exts) (c : DebugConfiguration) :
    warningKeyCount (stripGoflagsGcflags e c).2 gcflagsWarningKey =
      if e.suppressed gcflagsWarningKey then 0
      else if goflagsHasGcflags c then 1 else 0 := by
  unfold stripGoflagsGcflags goflagsHasGcflags
  cases hc : c.env with
  | none => simp [warningKeyCount]
  | some o =>
    by_cases ht : truthyStr (objGet o "GOFLAGS") = true
    · by_cases hr : (removeFlag ((objGet o "GOFLAGS").getD "") "gcflags").removed = true
      · simp only [ht, hr, if_pos]
        rw [warningKeyCount_show_self]
        simp [ht, hr]
      · simp only [ht, Bool.not_eq_true] at hr ⊢
        simp [ht, hr, warningKeyCount]
    · simp only [Bool.not_eq_true] at ht
      simp [ht, warningKeyCount]

theorem warningKeyCount_launchRemote (e : Exts) (c : DebugConfiguration) :
    warningKeyCount (launchRemoteWarning e c) gcflagsWarningKey = 0 := by
  unfold launchRemoteWarning showWarning
  repeat' split
  all_goals simp [warningKeyCount, gcflagsWarningKey]

theorem warningKeyCount_attachRemote (e : Exts) (c : DebugConfiguration) :
    warningKeyCount (attachRemoteProgramWarning e c) gcflagsWarningKey = 0 := by
  unfold attachRemoteProgramWarning showWarning
  repeat' split
  all_goals simp [warningKeyCount, gcflagsWarningKey]

theorem afterStrips_mode (e : Exts) (c1 : DebugConfiguration) :
    (afterStrips e c1).mode = c1.mode := by
  show (stripGoflagsGcflags e (stripBuildFlagsGcflags e (fieldPhase e c1)).1).1.mode = c1.mode
  rw [(stripGoflagsGcflags_keeps e _).1, (stripBuildFlagsGcflags_keeps e _).1,
    (fieldPhase_keeps e c1).1]

/-- C3: the resolved `env` is the layered merge — inline `env` over env-file
contents over the ambient tool-execution environment — and on ambient
`A=1`, file contents `A=2, B=2`, inline `B=3` it resolves to `A=2, B=3`. -/
theorem env_merge_precedence (ambient : Obj) (fs : String → Obj)
    (dc : DebugConfiguration) :
    (∀ k : String,
      objGet ((resolveDebugConfigurationWithSubstitutedVariables ambient fs dc).env.getD []) k =
        optOr (objGet (dc.env.getD []) k)
          (optOr (objGet (parseEnvFiles dc.envFile fs) k) (objGet ambient k))) ∧
    (objGet ((resolveDebugConfigurationWithSubstitutedVariables [("A", "1")]
          (fun _ => [("A", "2"), ("B", "2")])
          { envFile := some (EnvFileValue.single "f"), env := some [("B", "3")] }).env.getD [])
        "A" = some "2" ∧
     objGet ((resolveDebugConfigurationWithSubstitutedVariables [("A", "1")]
          (fun _ => [("A", "2"), ("B", "2")])
          { envFile := some (EnvFileValue.single "f"), env := some [("B", "3")] }).env.getD [])
        "B" = some "3") := by
  refine ⟨?_, by decide, by decide⟩
  intro k
  show objGet (ambient ++ parseEnvFiles dc.envFile fs ++ dc.env.getD []) k = _
  rw [objGet_append, objGet_append]

/-- C4: after `resolveDebugConfigurationWithSubstitutedVariables`, the
`envFile` attribute is always unset, whatever it was before (single path,
list of paths, or absent). -/
theorem envFile_always_cleared (ambient : Obj) (fs : String → Obj)
    (dc : DebugConfiguration) :
    (resolveDebugConfigurationWithSubstitutedVariables ambient fs dc).envFile = none := rfl

/-- C5 as stated is false: a session whose configuration carries a `gcflags`
flag in `buildFlags` *and* in `env.GOFLAGS` emits the warning with key
`ignoreDebugGCFlagsWarning` twice, not exactly once. -/
theorem gcflags_warning_twice_counterexample :
    (removeFlag "--gcflags=-N" "gcflags").removed = true ∧
    warningKeyCount (resolveDebugConfiguration exE (some dcBothGcflags)).2
      gcflagsWarningKey = 2 :=
  ⟨by decide, by decide⟩

/-- C5 (amended): for a launch-ready configuration whose `buildFlags`
contains a `gcflags` flag, `resolveDebugConfiguration` replaces `buildFlags`
with the flag removed and — when the key is not suppressed — emits the
warning keyed `ignoreDebugGCFlagsWarning` once for the `buildFlags` field,
plus one more occurrence of the same key when the `GOFLAGS` entry of `env`
also contains a `gcflags` flag; when `buildFlags` contains no `gcflags`
flag it is left unchanged and no warning is attributed to `buildFlags`
(the same key may still be emitted for `GOFLAGS`). -/
theorem gcflags_stripping_amended (e : Exts) (dc : DebugConfiguration) (bf : String)
    (hreq : truthyStr dc.request = true)
    (habs : isAbsolute e.dlvBinPath = true)
    (hbf : dc.buildFlags = some bf)
    (hne : (bf == "") = false) :
    ((removeFlag bf "gcflags").removed = true →
      (∃ c, (resolveDebugConfiguration e (some dc)).1 = some c ∧
        c.buildFlags = some (removeFlag bf "gcflags").args) ∧
      warningKeyCount (resolveDebugConfiguration e (some dc)).2 gcflagsWarningKey =
        (if e.suppressed gcflagsWarningKey then 0 else 1) + goflagsCount e dc) ∧
    ((removeFlag bf "gcflags").removed = false →
      (∃ c, (resolveDebugConfiguration e (some dc)).1 = some c ∧
        c.buildFlags = some bf) ∧
      warningKeyCount (resolveDebugConfiguration e (some dc)).2 gcflagsWarningKey =
        goflagsCount e dc) := by
  have hres := resolve_of_skeleton_some e (some dc) dc (skeletonStep_truthy e dc hreq)
  have hc8bf : (fieldPhase e dc).buildFlags = some bf :=
    (fieldPhase_keeps e dc).2.1.trans hbf
  have hc8env : (fieldPhase e dc).env = dc.env := (fieldPhase_keeps e dc).2.2
  have h9 := stripBF_some e (fieldPhase e dc) bf hc8bf hne
  have hshape : resolveDebugConfiguration e (some dc) =
      (some (concretizeMode e (afterStrips e dc)),
       stripWarnings e dc ++ launchRemoteWarning e (concretizeMode e (afterStrips e dc)) ++
         attachRemoteProgramWarning e (concretizeMode e (afterStrips e dc))) := by
    rw [hres]
    unfold resolveRest
    rw [if_pos habs]
  have hcount0 : warningKeyCount (resolveDebugConfiguration e (some dc)).2
      gcflagsWarningKey = warningKeyCount (stripWarnings e dc) gcflagsWarningKey := by
    rw [hshape]
    show warningKeyCount (stripWarnings e dc ++ _ ++ _) gcflagsWarningKey = _
    rw [warningKeyCount_append, warningKeyCount_append, warningKeyCount_launchRemote,
      warningKeyCount_attachRemote]
    omega
  constructor
  · intro hrem
    rw [if_pos hrem] at h9
    have hbfres : (concretizeMode e (afterStrips e dc)).buildFlags =
        some (removeFlag bf "gcflags").args := by
      rw [concretizeMode_keeps]
      show (stripGoflagsGcflags e (stripBuildFlagsGcflags e (fieldPhase e dc)).1).1.buildFlags = _
      rw [(stripGoflagsGcflags_keeps e _).2, h9]
    have henv9 : ((stripBuildFlagsGcflags e (fieldPhase e dc)).1).env = dc.env := by
      rw [h9]
      exact hc8env
    refine ⟨⟨concretizeMode e (afterStrips e dc), by rw [hshape], hbfres⟩, ?_⟩
    rw [hcount0]
    unfold stripWarnings
    rw [warningKeyCount_append, stripGF_count,
      goflagsHasGcflags_env_congr henv9, h9]
    show warningKeyCount (showWarning e.suppressed gcflagsWarningKey gcflagsBuildFlagsMsg)
        gcflagsWarningKey + _ = _
    rw [warningKeyCount_show_self]
    unfold goflagsCount
    cases hs : e.suppressed gcflagsWarningKey <;>
      cases hh : goflagsHasGcflags dc <;> simp [hs, hh]
  · intro hrem
    rw [if_neg (by rw [hrem]; exact Bool.false_ne_true)] at h9
    have hbfres : (concretizeMode e (afterStrips e dc)).buildFlags = some bf := by
      rw [concretizeMode_keeps]
      show (stripGoflagsGcflags e (stripBuildFlagsGcflags e (fieldPhase e dc)).1).1.buildFlags = _
      rw [(stripGoflagsGcflags_keeps e _).2, h9]
      exact hc8bf
    have henv9 : ((stripBuildFlagsGcflags e (fieldPhase e dc)).1).env = dc.env := by
      rw [h9]
      exact hc8env
    refine ⟨⟨concretizeMode e (afterStrips e dc), by rw [hshape], hbfres⟩, ?_⟩
    rw [hcount0]
    unfold stripWarnings
    rw [warningKeyCount_append, stripGF_count,
      goflagsHasGcflags_env_congr henv9, h9]
    show warningKeyCount ([] : List Effect) gcflagsWarningKey + _ = _
    unfold goflagsCount
    cases hs : e.suppressed gcflagsWarningKey <;>
      cases hh : goflagsHasGcflags dc <;> simp [hs, hh, warningKeyCount]

theorem gcflags_stripping_amended_witness :
    truthyStr dcBF5.request = true ∧
    isAbsolute exE.dlvBinPath = true ∧
    (removeFlag "--gcflags=all=-N -l --other=1" "gcflags").removed = true ∧
    (removeFlag "--gcflags=all=-N -l --other=1" "gcflags").args = "--other=1" ∧
    ((∃ c, (resolveDebugConfiguration exE (some dcBF5)).1 = some c ∧
        c.buildFlags = some (removeFlag "--gcflags=all=-N -l --other=1" "gcflags").args) ∧
      warningKeyCount (resolveDebugConfiguration exE (some dcBF5)).2 gcflagsWarningKey =
        (if exE.suppressed gcflagsWarningKey then 0 else 1) + goflagsCount exE dcBF5) :=
  ⟨by decide, by decide, by decide, by decide,
    (gcflags_stripping_amended exE dcBF5 "--gcflags=all=-N -l --other=1"
      (by decide) (by decide) rfl (by decide)).1 (by decide)⟩

/-- C6 as stated is false: both removal sites emit their warning under the
one shared key `ignoreDebugGCFlagsWarning` — stripping from `buildFlags`
and stripping from `env.GOFLAGS` do not use distinct keys. -/
theorem gcflags_distinct_keys_counterexample :
    (resolveDebugConfiguration exE (some dcBFonly)).2 =
      [Effect.warningShown "ignoreDebugGCFlagsWarning" gcflagsBuildFlagsMsg] ∧
    (resolveDebugConfiguration exE (some dcGFonly)).2 =
      [Effect.warningShown "ignoreDebugGCFlagsWarning" gcflagsGoflagsMsg] :=
  ⟨by decide, by decide⟩

/-- C6 (amended): whichever field the conflicting flag is removed from, the
emitted warning carries the single shared stable key
`ignoreDebugGCFlagsWarning`; only the message text distinguishes whether it
was removed from `buildFlags` or from `GOFLAGS`. -/
theorem gcflags_warning_key_shared (e : Exts) (c : DebugConfiguration) :
    ((stripBuildFlagsGcflags e c).2.all isGcflagsKeyWarning = true) ∧
    ((stripGoflagsGcflags e c).2.all isGcflagsKeyWarning = true) ∧
    gcflagsBuildFlagsMsg ≠ gcflagsGoflagsMsg := by
  refine ⟨?_, ?_, by decide⟩
  · unfold stripBuildFlagsGcflags showWarning
    repeat' split
    all_goals simp [isGcflagsKeyWarning]
  · unfold stripGoflagsGcflags showWarning
    repeat' split
    all_goals simp [isGcflagsKeyWarning]

theorem skeletonStep_eq_id (e : Exts) (dc0 : Option DebugConfiguration)
    (hcond : (match dc0 with | none => false | some c => truthyStr c.request) = true) :
    skeletonStep e dc0 = dc0 := by
  unfold skeletonStep
  rw [if_neg (by rw [hcond]; simp)]

theorem skeletonStep_eq_none_editor (e : Exts) (dc0 : Option DebugConfiguration)
    (hcond : (match dc0 with | none => false | some c => truthyStr c.request) = false)
    (hed : e.activeEditor = none) :
    skeletonStep e dc0 = none := by
  unfold skeletonStep
  rw [if_pos (by rw [hcond]; rfl), hed]

theorem skeletonStep_eq_editor (e : Exts) (dc0 : Option DebugConfiguration) (ed : Editor)
    (hcond : (match dc0 with | none => false | some c => truthyStr c.request) = false)
    (hed : e.activeEditor = some ed) :
    skeletonStep e dc0 =
      (if (ed.languageId == "go") = true then
        some { dc0.getD {} with
          name := some "Launch"
          type' := some e.defaultDebugAdapterType
          request := some "launch"
          mode := some "auto"
          program := some (dirname ed.fileName) }
      else none) := by
  unfold skeletonStep
  rw [if_pos (by rw [hcond]; rfl), hed]

theorem skeletonStep_cases (e : Exts) (dc0 : Option DebugConfiguration)
    (c1 : DebugConfiguration) (h : skeletonStep e dc0 = some c1) :
    dc0 = some c1 ∨ c1.mode = some "auto" := by
  cases hcnd : (match dc0 with | none => false | some c => truthyStr c.request) with
  | true =>
    rw [skeletonStep_eq_id e dc0 hcnd] at h
    exact Or.inl h
  | false =>
    cases hed : e.activeEditor with
    | none =>
      rw [skeletonStep_eq_none_editor e dc0 hcnd hed] at h
      exact absurd h (by simp)
    | some ed =>
      rw [skeletonStep_eq_editor e dc0 ed hcnd hed] at h
      split at h
      · right
        rw [← Option.some.inj h]
      · exact absurd h (by simp)

/-- C7: whenever `resolveDebugConfiguration` returns a configuration, a
`mode: "auto"` input has been concretized using the active editor — `test`
when the active file's name ends in `_test.go`, `debug` for any other
active file — and no returned configuration ever carries `mode: "auto"`. -/
theorem mode_auto_concretization (e : Exts) (dc0 : Option DebugConfiguration)
    (c : DebugConfiguration)
    (h : (resolveDebugConfiguration e dc0).1 = some c) :
    (∀ dc ed, dc0 = some dc → e.activeEditor = some ed → dc.mode = some "auto" →
      c.mode = some (if strEndsWith ed.fileName "_test.go" then "test" else "debug")) ∧
    c.mode ≠ some "auto" := by
  cases hs : skeletonStep e dc0 with
  | none =>
    unfold resolveDebugConfiguration at h
    rw [hs] at h
    exact absurd h (by simp)
  | some c1 =>
    rw [resolve_of_skeleton_some e dc0 c1 hs] at h
    by_cases habs : isAbsolute e.dlvBinPath = true
    · unfold resolveRest at h
      rw [if_pos habs] at h
      simp only [Option.some.injEq] at h
      have hc : c = concretizeMode e (afterStrips e c1) := h.symm
      have hmode11 : (afterStrips e c1).mode = c1.mode := afterStrips_mode e c1
      constructor
      · intro dc ed hdc0 hed hmode
        subst hdc0
        have hc1mode : c1.mode = some "auto" := by
          rcases skeletonStep_cases e (some dc) c1 hs with heq | hauto
          · rw [← Option.some.inj heq]
            exact hmode
          · exact hauto
        rw [hc]
        unfold concretizeMode
        rw [if_pos (by rw [hmode11, hc1mode]; rfl)]
        rw [hed]
      · rw [hc]
        unfold concretizeMode
        by_cases hm : ((afterStrips e c1).mode == some "auto") = true
        · rw [if_pos hm]
          cases hed : e.activeEditor with
          | none => simp
          | some ed =>
            by_cases ht : strEndsWith ed.fileName "_test.go" = true <;> simp [ht]
        · rw [if_neg hm]
          exact beq_eq_false_iff_ne.mp (Bool.not_eq_true _ ▸ eq_false_of_ne_true hm)
    · unfold resolveRest at h
      rw [if_neg (by simpa using habs)] at h
      exact absurd h (by simp)

theorem mode_auto_concretization_witness :
    (resolveDebugConfiguration exEd (some dcAuto)).1 = some cAutoResolved ∧
    cAutoResolved.mode =
      some (if strEndsWith "/ws/main.go" "_test.go" then "test" else "debug") ∧
    cAutoResolved.mode ≠ some "auto" :=
  ⟨by decide,
   (mode_auto_concretization exEd (some dcAuto) cAutoResolved (by decide)).1 dcAuto
     { fileName := "/ws/main.go", languageId := "go" } rfl rfl rfl,
   (mode_auto_concretization exEd (some dcAuto) cAutoResolved (by decide)).2⟩

/-- C8: with no user configuration and an active Go file at `/ws/main.go`,
the skeleton configuration built by `resolveDebugConfiguration` has request
`launch`, mode `auto`, the default adapter type, and `program` equal to
`/ws`, the directory containing the active file. -/
theorem skeleton_defaulting (e : Exts) (ed : Editor)
    (hed : e.activeEditor = some ed) (hgo : (ed.languageId == "go") = true)
    (hfn : ed.fileName = "/ws/main.go") :
    skeletonStep e none = some
      { name := some "Launch", type' := some e.defaultDebugAdapterType,
        request := some "launch", mode := some "auto", program := some "/ws" } := by
  have hd : dirname "/ws/main.go" = "/ws" := by decide
  rw [skeletonStep_eq_editor e none ed rfl hed, if_pos hgo, hfn, hd]
  rfl

theorem skeleton_defaulting_witness :
    exEd.activeEditor = some { fileName := "/ws/main.go", languageId := "go" } ∧
    skeletonStep exEd none = some
      { name := some "Launch", type' := some exEd.defaultDebugAdapterType,
        request := some "launch", mode := some "auto", program := some "/ws" } :=
  ⟨rfl, skeleton_defaulting exEd { fileName := "/ws/main.go", languageId := "go" }
    rfl (by decide) rfl⟩

/-- C9: resolution failures yield no configuration instead of raising —
when skeleton defaulting is needed but no active Go editor exists the
result is empty with no effects, and when the `dlv` binary is not found at
an absolute path the result is empty and the install prompt is among the
effects.  (`resolveDebugConfiguration` is a total function: no input makes
it raise.) -/
theorem resolution_failure_yields_none (e : Exts) (dc0 : Option DebugConfiguration) :
    ((match dc0 with | none => false | some c => truthyStr c.request) = false →
     (match e.activeEditor with | none => true | some ed => !(ed.languageId == "go")) = true →
     resolveDebugConfiguration e dc0 = (none, [])) ∧
    (∀ c1, skeletonStep e dc0 = some c1 → isAbsolute e.dlvBinPath = false →
      (resolveDebugConfiguration e dc0).1 = none ∧
      Effect.promptedForMissingTool "dlv" ∈ (resolveDebugConfiguration e dc0).2) := by
  constructor
  · intro h1 h2
    have hnone : skeletonStep e dc0 = none := by
      cases hed : e.activeEditor with
      | none => exact skeletonStep_eq_none_editor e dc0 h1 hed
      | some ed =>
        rw [hed] at h2
        simp only [Bool.not_eq_true'] at h2
        rw [skeletonStep_eq_editor e dc0 ed h1 hed, if_neg (by rw [h2]; simp)]
    unfold resolveDebugConfiguration
    rw [hnone]
  · intro c1 hs habs
    rw [resolve_of_skeleton_some e dc0 c1 hs]
    unfold resolveRest
    rw [if_neg (by simp [habs])]
    exact ⟨rfl, by simp⟩

theorem resolution_failure_yields_none_witness :
    resolveDebugConfiguration exE none = (none, []) ∧
    ((resolveDebugConfiguration exNoDlv (some dcAuto)).1 = none ∧
      Effect.promptedForMissingTool "dlv" ∈ (resolveDebugConfiguration exNoDlv (some dcAuto)).2) :=
  ⟨(resolution_failure_yields_none exE none).1 (by decide) (by decide),
   (resolution_failure_yields_none exNoDlv (some dcAuto)).2 dcAuto (by decide) (by decide)⟩

/-- C10: a configuration with `request` set and `mode: "auto"` resolved
while no editor is active at all concretizes `mode` to `"debug"` — the
test-file check only applies when an active editor exists. -/
theorem mode_auto_no_editor (e : Exts) (dc : DebugConfiguration) (c : DebugConfiguration)
    (hed : e.activeEditor = none)
    (hreq : truthyStr dc.request = true)
    (hmode : dc.mode = some "auto")
    (h : (resolveDebugConfiguration e (some dc)).1 = some c) :
    c.mode = some "debug" := by
  rw [resolve_of_skeleton_some e (some dc) dc (skeletonStep_truthy e dc hreq)] at h
  by_cases habs : isAbsolute e.dlvBinPath = true
  · unfold resolveRest at h
    rw [if_pos habs] at h
    simp only [Option.some.injEq] at h
    have hm : (afterStrips e dc).mode = some "auto" :=
      (afterStrips_mode e dc).trans hmode
    rw [← h]
    unfold concretizeMode
    rw [if_pos (by rw [hm]; rfl), hed]
  · unfold resolveRest at h
    rw [if_neg (by simpa using habs)] at h
    exact absurd h (by simp)

theorem mode_auto_no_editor_witness :
    (resolveDebugConfiguration exE (some dcAuto)).1 = some cAutoResolved ∧
    cAutoResolved.mode = some "debug" :=
  ⟨by decide,
   mode_auto_no_editor exE dcAuto cAutoResolved rfl (by decide) rfl (by decide)⟩

end VscodeGo
